import Mathlib

/-!
Verification development for the simple-cache Redis-compatible keyspace
server.  Python strings are embedded as lists of characters, wall-clock
times as rationals, and the storage dictionary as a function from keys to
optional entries.  Each definition is a direct translation of the
corresponding function in the Python source (`app/data_storage.py`,
`app/commands/...`, `app/main.py`, `app/format_response.py`,
`app/utils/ordered_set.py`).
-/

/-- Python `str` embedded as a list of characters. -/
abbrev PyStr := List Char

/-- The value variants a key can hold: string, list, stream (dict keyed by
entry-id strings, in insertion order), or ordered set (the insertion-ordered
keys of the `OrderedSet.items` dict). -/
inductive Value where
  | str (s : PyStr)
  | list (xs : List PyStr)
  | stream (entries : List (PyStr × List (PyStr × PyStr)))
  | oset (members : List PyStr)
deriving DecidableEq, Repr

/-- An entry of `DataStorage.storage_dict`: `ValueWithExpiry(value, expiry_time)`. -/
abbrev Entry := Value × Option ℚ

/-- The `storage_dict` of `DataStorage`, as a map from keys to optional entries. -/
abbrev Store := PyStr → Option Entry

/-- Point update of the storage dictionary (`storage_dict[key] = v` or `del`). -/
def Store.update (st : Store) (key : PyStr) (v : Option Entry) : Store :=
  fun k => if k = key then v else st k

/-- Python `int(q)` for a rational: truncation toward zero. -/
def pyTrunc (q : ℚ) : Int :=
  if q < 0 then -(Int.floor (-q)) else Int.floor q

/-- `DataStorage.get` (data_storage.py lines 197-216): passive-expiry lookup.
Returns the value (or none) together with the storage dictionary after the
lookup; an entry whose expiry has passed (`curr_time > expiry_time`) is
deleted and reported absent. -/
def DataStorage.get (st : Store) (key : PyStr) (now : ℚ) : Option Value × Store :=
  match st key with
  | none => (none, st)
  | some item =>
    match item.2 with
    | some d =>
      if now > d then (none, st.update key none)
      else (some item.1, st)
    | none => (some item.1, st)

/-- `DataStorage.get_ttl` (data_storage.py lines 98-121): returns the stored
expiry time.  When the entry is expired it returns none, but (unlike `get`)
it leaves the storage dictionary untouched, despite logging
"Deleting expired key".  The returned store is always the input store. -/
def DataStorage.get_ttl (st : Store) (key : PyStr) (now : ℚ) : Option ℚ × Store :=
  match st key with
  | none => (none, st)
  | some item =>
    match item.2 with
    | some d =>
      if now > d then (none, st)
      else (item.2, st)
    | none => (item.2, st)

/-- `DataStorage.set` (data_storage.py lines 193-195): unconditional write of
`ValueWithExpiry(value, expiry_time)`; the Python default for `expiry_time`
is `None`. -/
def DataStorage.set (st : Store) (key : PyStr) (value : Value) (expiry : Option ℚ) : Store :=
  st.update key (some (value, expiry))

/-- Modelled from the spec: `DataStorage.get_expiry_time` is called by the
TTL, EXPIRE and SET-KEEPTTL handlers but is not defined in
`src/app/data_storage.py` (only `get_ttl` is).  Spec section 4.3 lists the
store operation as: get_expiry(key) returns deadline or none. -/
def DataStorage.get_expiry_time (st : Store) (key : PyStr) : Option ℚ :=
  match st key with
  | none => none
  | some item => item.2

/-- `_handle_ttl` (other_commands.py lines 76-106): the TTL command.
Performs `storage.get` (which passively expires) followed by
`storage.get_expiry_time`, then replies -2 for a missing key, -1 for a key
without expiry, and `int(expiry_time - time.time())` otherwise. -/
def handle_ttl (st : Store) (key : PyStr) (now : ℚ) : Int × Store :=
  let r := DataStorage.get st key now
  let expiry := DataStorage.get_expiry_time r.2 key
  match r.1 with
  | none => (-2, r.2)
  | some _ =>
    match expiry with
    | none => (-1, r.2)
    | some d => (pyTrunc (d - now), r.2)

/-- Python `str.isdigit` restricted to ASCII digits (the only values INCR
produces and consumes). -/
def pyIsDigit (s : PyStr) : Bool :=
  decide (s ≠ []) && s.all (fun c => '0' ≤ c && c ≤ '9')

/-- Value of a single ASCII digit character. -/
def digitVal (c : Char) : Nat := c.toNat - 48

/-- Python `int(s)` on a string of ASCII digits. -/
def pyDigitsToNat (s : PyStr) : Nat :=
  s.foldl (fun acc c => 10 * acc + digitVal c) 0

/-- The decimal digit character for a digit value below 10. -/
def digitChar10 (n : Nat) : Char :=
  match n with
  | 0 => '0' | 1 => '1' | 2 => '2' | 3 => '3' | 4 => '4'
  | 5 => '5' | 6 => '6' | 7 => '7' | 8 => '8' | _ => '9'

/-- Fueled decimal rendering (structural recursion so that the kernel can
evaluate it). -/
def natDigitsAux : Nat → Nat → PyStr
  | 0, _ => []
  | fuel + 1, n =>
    if n < 10 then [digitChar10 n]
    else natDigitsAux fuel (n / 10) ++ [digitChar10 (n % 10)]

/-- Python `str(n)` for a natural number: decimal digits. -/
def natDigits (n : Nat) : PyStr := natDigitsAux (n + 1) n

/-- Python `str(n)` for an integer. -/
def intDigits (n : Int) : PyStr :=
  if n < 0 then '-' :: natDigits (-n).toNat else natDigits n.toNat

/-- Possible outcomes of the INCR handler. -/
inductive IncrOut where
  | reply (n : Int)
  | errNonInt
  | errWrongType
deriving DecidableEq, Repr

/-- `_handle_incr` (transaction_commands.py lines 37-72): `storage.get`, then
either reply an error, or store `str(new_value)` via `storage.set` called
without an expiry argument (so the Python default `expiry_time=None` is
written). -/
def handle_incr (st : Store) (key : PyStr) (now : ℚ) : IncrOut × Store :=
  let r := DataStorage.get st key now
  match r.1 with
  | none => (.reply 1, DataStorage.set r.2 key (.str (natDigits 1)) none)
  | some v =>
    match v with
    | .str s =>
      if ¬ pyIsDigit s then (.errNonInt, r.2)
      else
        let n := pyDigitsToNat s
        (.reply (n + 1), DataStorage.set r.2 key (.str (natDigits (n + 1))) none)
    | _ => (.errWrongType, r.2)

/-- Python `list.insert(i, x)` for an index below the length (as in LPUSH,
where the insertion index never exceeds the current length); Python clamps
an oversized index to the end, which `take`/`drop` also do. -/
def pyInsert (l : List α) (i : Nat) (x : α) : List α :=
  l.take i ++ x :: l.drop i

/-- The list mutation of `DataStorage.rpush` (data_storage.py lines 220-245):
`accessed_list.extend(items)`. -/
def rpush (l items : List PyStr) : List PyStr := l ++ items

/-- The list mutation of `DataStorage.lpush` (data_storage.py lines 247-282):
for i in range(len(items)): accessed_list.insert(i, items[len(items)-i-1]). -/
def lpush (l items : List PyStr) : List PyStr :=
  (List.range items.length).foldl
    (fun acc i => pyInsert acc i (items.getD (items.length - i - 1) [])) l

/-- Python slice-endpoint normalization for a list of length `L`: a negative
index counts from the end and clamps at 0; a nonnegative one is used as is
(take/drop clamp it to the length). -/
def pyIndex (L : Nat) (i : Int) : Nat :=
  if i < 0 then (i + L).toNat else i.toNat

/-- Python `l[a:b]`. -/
def pySlice (l : List α) (a b : Int) : List α :=
  (l.drop (pyIndex l.length a)).take (pyIndex l.length b - pyIndex l.length a)

/-- Python `l[a:]`. -/
def pySliceFrom (l : List α) (a : Int) : List α :=
  l.drop (pyIndex l.length a)

/-- The end-index clamp in `DataStorage.lrange`: `if end >= list_len: end =
list_len - 1`. -/
def lrangeEndClamp (L : Nat) (e : Int) : Int :=
  if e ≥ (L : Int) then (L : Int) - 1 else e

/-- `DataStorage.lrange` (data_storage.py lines 299-353) on the stored list:
the same-sign short-circuit for `start > end`, the `start >= len` check, the
end clamp, the two special branches returning `value[start:]` when the
clamped end or the start is -1, and otherwise `value[start:end+1]`. -/
def lrange (l : List α) (s e : Int) : List α :=
  if s > e ∧ ((0 < s ∧ 0 < e) ∨ (s < 0 ∧ e < 0)) then []
  else if s ≥ (l.length : Int) then []
  else if lrangeEndClamp l.length e = -1 then pySliceFrom l s
  else if s = -1 then pySliceFrom l s
  else pySlice l s (lrangeEndClamp l.length e + 1)

/-- The index normalization described by the claim: effective index =
`i + L` for `i < 0`, clamped to 0 when still negative. -/
def effIndex (L : Nat) (i : Int) : Int :=
  if i < 0 then max (i + L) 0 else i

/-- The LRANGE semantics exactly as the claim states them: normalize both
indices by `effIndex`, empty if the effective start is at least `L`, clamp an
effective end of at least `L` to `L-1`, empty if the effective start exceeds
the effective end, otherwise the inclusive slice. -/
def lrangeClaim (l : List α) (s e : Int) : List α :=
  if effIndex l.length s ≥ (l.length : Int) then []
  else if effIndex l.length s > lrangeEndClamp l.length (effIndex l.length e) then []
  else (l.drop (effIndex l.length s).toNat).take
    ((lrangeEndClamp l.length (effIndex l.length e) + 1 - effIndex l.length s).toNat)

/-- `format_integer_success` (format_response.py lines 13-17). -/
def format_integer_success (n : Int) : PyStr :=
  ':' :: (intDigits n ++ ['\r', '\n'])

/-- `DataStorage.scard` (data_storage.py lines 651-664): the length of the
stored ordered set, and 0 when the key is missing or holds any other
variant; it never raises. -/
def DataStorage.scard (st : Store) (key : PyStr) : Nat :=
  match st key with
  | some (Value.oset members, _) => members.length
  | _ => 0

/-- `_handle_scard` (set_commands.py lines 78-107) after argument
validation: `storage.scard` is wrapped in a try/except for WrongTypeError,
but since `scard` is total and never raises, the reply is always the
integer frame. -/
def handle_scard (st : Store) (key : PyStr) : PyStr :=
  format_integer_success (DataStorage.scard st key)

/-- `OrderedSet.add` (ordered_set.py lines 15-21) on the ordered key list of
the `items` dict. -/
def OrderedSet.add (l : List PyStr) (x : PyStr) : List PyStr :=
  if x ∈ l then l else l ++ [x]

/-- `OrderedSet.remove` (ordered_set.py lines 23-28): delete the dict key if
present (keys are unique, so erasing the first occurrence is the deletion). -/
def OrderedSet.remove (l : List PyStr) (x : PyStr) : List PyStr :=
  l.erase x

/-- `OrderedSet.update` (ordered_set.py lines 30-35). -/
def OrderedSet.updateAll (l : List PyStr) (items : List PyStr) : List PyStr :=
  items.foldl OrderedSet.add l

/-- `OrderedSet.difference_update` (ordered_set.py lines 37-42). -/
def OrderedSet.difference_update (l : List PyStr) (items : List PyStr) : List PyStr :=
  items.foldl OrderedSet.remove l

/-- `OrderedSet.intersection_update` (ordered_set.py lines 44-51): iterate
over a snapshot of the keys and remove those not in the other iterable. -/
def OrderedSet.intersection_update (l : List PyStr) (items : List PyStr) : List PyStr :=
  l.filter (fun x => x ∈ items)

/-- What a key can hold in the set-command heap model: a reference to an
`items` dict object, or a value of some other variant. -/
inductive SetSlot where
  | oset (ref : Nat)
  | nonset
deriving DecidableEq

/-- Heap model for the set commands: `refs` is the storage dictionary
(key to OrderedSet object, identified by the object id of its `items`
dict), and `heap` maps each `items` dict object to its ordered key list.
Object identity matters here because `copy.copy` on an `OrderedSet`
shallow-copies its `__dict__`, so the copy shares the same `items` dict
object with the original. -/
structure SetStore where
  refs : PyStr → Option SetSlot
  heap : Nat → List PyStr

/-- Mutate one `items` dict object in place. -/
def SetStore.updateHeap (st : SetStore) (r : Nat) (v : List PyStr) : SetStore :=
  { st with heap := fun i => if i = r then v else st.heap i }

/-- `DataStorage.sdiff` (data_storage.py lines 666-690): `copy(first)` makes
a new OrderedSet object whose `items` dict is the very same object as the
first operand's, then `difference_update` is applied for each further key.
Returns the contents of the result object and the post-state. -/
def DataStorage.sdiff (st : SetStore) (keys : List PyStr) : List PyStr × SetStore :=
  match keys with
  | [] => ([], st)
  | k₁ :: rest =>
    match st.refs k₁ with
    | some (.oset r) =>
      let stOut := rest.foldl (fun acc k =>
        match acc.refs k with
        | some (.oset rOther) =>
          acc.updateHeap r (OrderedSet.difference_update (acc.heap r) (acc.heap rOther))
        | _ => acc) st
      (stOut.heap r, stOut)
    | _ => ([], st)

/-- The loop of `DataStorage.sinter` over the remaining keys: on a missing
or non-set key it returns immediately (flag false, fresh empty set), with
the mutations made so far already applied to the aliased first operand. -/
def sinterLoop : SetStore → Nat → List PyStr → SetStore × Bool
  | st, _, [] => (st, true)
  | st, r, k :: rest =>
    match st.refs k with
    | some (.oset rOther) =>
      sinterLoop (st.updateHeap r (OrderedSet.intersection_update (st.heap r) (st.heap rOther))) r rest
    | _ => (st, false)

/-- `DataStorage.sinter` (data_storage.py lines 692-721), with the same
shallow-copy aliasing as `sdiff`. -/
def DataStorage.sinter (st : SetStore) (keys : List PyStr) : List PyStr × SetStore :=
  match keys with
  | [] => ([], st)
  | k₁ :: rest =>
    match st.refs k₁ with
    | some (.oset r) =>
      let out := sinterLoop st r rest
      if out.2 then (out.1.heap r, out.1) else ([], out.1)
    | _ => ([], st)

/-- Python `s.split(sep)` for a single-character separator. -/
def pySplitOn (sep : Char) : PyStr → List PyStr
  | [] => [[]]
  | c :: rest =>
    if c = sep then [] :: pySplitOn sep rest
    else
      match pySplitOn sep rest with
      | [] => [[c]]
      | l :: ls => (c :: l) :: ls

/-- Python `int(s)`: optional sign followed by decimal digits. -/
def pyParseInt (s : PyStr) : Option Int :=
  match s with
  | '-' :: rest => if pyIsDigit rest then some (-(pyDigitsToNat rest : Int)) else none
  | '+' :: rest => if pyIsDigit rest then some ((pyDigitsToNat rest : Int)) else none
  | _ => if pyIsDigit s then some ((pyDigitsToNat s : Int)) else none

/-- A stream value: the entry dict, keyed by entry-id strings in insertion
order. -/
abbrev StreamVal := List (PyStr × List (PyStr × PyStr))

/-- Outcome of XADD: the returned id and new stream contents, a ValueError
message, or a crash from reading a Python local that was never assigned. -/
inductive XaddOut where
  | ok (id : PyStr) (stream : StreamVal)
  | err (msg : PyStr)
  | nameError
deriving DecidableEq

/-- The XADD invalid-id error message. -/
def invalidStreamIdMsg : PyStr :=
  "ERR Invalid stream ID specified as stream command argument".toList

/-- The XADD non-monotone-id error message. -/
def xaddTooSmallMsg : PyStr :=
  "ERR The ID specified in XADD is equal or smaller than the target stream top item".toList

/-- The XADD 0-0 error message. -/
def xaddZeroMsg : PyStr :=
  "ERR The ID specified in XADD must be greater than 0-0".toList

/-- The id string `f"{milliseconds}-{sequence_number}"`. -/
def renderId (ms seq : Int) : PyStr :=
  intDigits ms ++ '-' :: intDigits seq

/-- The body of `DataStorage.xadd` (data_storage.py lines 477-538) after the
id format has been resolved into the two auto-generation flags and the
possibly unbound locals `milliseconds` and `sequence_number` (none models an
unbound Python local; reading it is a crash).  Mirrors the source branch for
branch: the 0-0 check applies only to fully explicit ids, the
auto-sequence branch never compares `milliseconds` against the last entry's
`milliseconds`, and a present-but-empty stream stores the raw id string. -/
def xaddResolved (streamOpt : Option StreamVal) (id : PyStr)
    (fv : List (PyStr × PyStr)) (autoMs autoSeq : Bool)
    (msOpt seqOpt : Option Int) : XaddOut :=
  if ¬ autoMs ∧ ¬ autoSeq ∧ msOpt = some 0 ∧ seqOpt = some 0 then .err xaddZeroMsg
  else
    match streamOpt with
    | some entries =>
      match entries.getLast? with
      | some lastEntry =>
        let lastParts := pySplitOn '-' lastEntry.1
        match pyParseInt (lastParts.getD 0 []), pyParseInt (lastParts.getD 1 []) with
        | some lm, some ls =>
          if autoSeq then
            match msOpt with
            | none => .nameError
            | some m =>
              let sq := if m = 0 then (if m = lm then ls + 1 else 1)
                        else (if m = lm then ls + 1 else 0)
              .ok (renderId m sq) (entries ++ [(renderId m sq, fv)])
          else if autoMs then
            match msOpt, seqOpt with
            | some m, some s0 =>
              let sq := if m = lm then ls + 1 else s0
              .ok (renderId m sq) (entries ++ [(renderId m sq, fv)])
            | _, _ => .nameError
          else
            match msOpt, seqOpt with
            | some m, some s0 =>
              if m < lm ∨ (m = lm ∧ s0 ≤ ls) then .err xaddTooSmallMsg
              else .ok id (entries ++ [(id, fv)])
            | _, _ => .nameError
        | _, _ => .nameError
      | none => .ok id (entries ++ [(id, fv)])
    | none =>
      if autoSeq then
        match msOpt with
        | none => .nameError
        | some m =>
          let sq : Int := if m = 0 then 1 else 0
          .ok (renderId m sq) [(renderId m sq, fv)]
      else .ok id [(id, fv)]

/-- `DataStorage.xadd` (data_storage.py lines 429-538): id-format
resolution (`*`, `<ms>-<seq>`, `<ms>-*`) followed by the resolved body.
In the Python `try`, `int(id_parts[0])` runs before `int(id_parts[1])`, and
the `except` rescues only a `"*"` second part, so a failed first part leaves
`milliseconds` unbound. -/
def DataStorage.xadd (streamOpt : Option StreamVal) (id : PyStr) (nowMs : Int)
    (fv : List (PyStr × PyStr)) : XaddOut :=
  if id = ("*".toList) then
    xaddResolved streamOpt id fv true true (some nowMs) (some 0)
  else
    let parts := pySplitOn '-' id
    if parts.length ≠ 2 then .err invalidStreamIdMsg
    else
      let p0 := parts.getD 0 []
      let p1 := parts.getD 1 []
      match pyParseInt p0, pyParseInt p1 with
      | some m, some s => xaddResolved streamOpt id fv false false (some m) (some s)
      | mRes, _ =>
        if p1 = ("*".toList) then xaddResolved streamOpt id fv false true mRes none
        else .err invalidStreamIdMsg

/-- A blocked BLPOP waiter as pushed on the per-key heap: its arrival
timestamp and the identity of its future. -/
abbrev Waiter := ℚ × Nat

/-- The minimum-timestamp element of the heap (what `heapq.heappop`
returns; timestamps are distinct in any run exercised here, since equal
timestamps would make Python compare the incomparable future objects). -/
def minWaiter : List Waiter → Option Waiter
  | [] => none
  | w :: ws =>
    match minWaiter ws with
    | none => some w
    | some m => if m.1 < w.1 then some m else some w

/-- Repeatedly `heappop` until the heap is empty, in timestamp order
(fueled by the initial length). -/
def heapDrain : Nat → List Waiter → List Waiter
  | 0, _ => []
  | fuel + 1, ws =>
    match minWaiter ws with
    | none => []
    | some w => w :: heapDrain fuel (ws.erase w)

/-- `DataStorage._unblock_clients_and_pop` (data_storage.py lines 60-96):
pop every waiter from the heap; the still-pending ones form
`futures_to_set` (in pop order).  If any future is to be set, a single
`accessed_list.pop(0)` is performed (an IndexError — none — if the list is
empty), and then every collected future receives that same single
`removed_item`.  Result: the list after the handoff and, in resolution
order, (future id, delivered element, timestamp). -/
def unblock_clients_and_pop (accessedList : List PyStr) (waiters : List Waiter)
    (pending : Nat → Bool) : Option (List PyStr × List (Nat × PyStr × ℚ)) :=
  let popped := heapDrain waiters.length waiters
  let futuresToSet := popped.filter (fun w => pending w.2)
  if futuresToSet = [] then some (accessedList, [])
  else
    match accessedList with
    | [] => none
    | x :: rest => some (rest, futuresToSet.map (fun w => (w.2, x, w.1)))

/-- `DataStorage.rpush` followed by its handoff call: extend the list, then
`_unblock_clients_and_pop`. -/
def rpush_with_handoff (prior items : List PyStr) (waiters : List Waiter)
    (pending : Nat → Bool) : Option (List PyStr × List (Nat × PyStr × ℚ)) :=
  unblock_clients_and_pop (rpush prior items) waiters pending

/-- Python `str.strip()` whitespace: the characters for which `str.isspace`
holds (ASCII whitespace, the file/group/record/unit separators, NEL, and
the Unicode space separators). -/
def pyIsSpace (c : Char) : Bool :=
  (9 ≤ c.toNat && c.toNat ≤ 13) || c.toNat == 32 ||
  (28 ≤ c.toNat && c.toNat ≤ 31) || c.toNat == 0x85 || c.toNat == 0xa0 ||
  c.toNat == 0x1680 || (0x2000 ≤ c.toNat && c.toNat ≤ 0x200a) ||
  c.toNat == 0x2028 || c.toNat == 0x2029 || c.toNat == 0x202f ||
  c.toNat == 0x205f || c.toNat == 0x3000

/-- Python `s.strip()`: drop whitespace from both ends. -/
def pyStrip (l : PyStr) : PyStr :=
  ((l.dropWhile pyIsSpace).reverse.dropWhile pyIsSpace).reverse

/-- Python `s.split(CRLF)` for the two-character separator, leftmost
non-overlapping matches. -/
def splitCRLF : PyStr → List PyStr
  | [] => [[]]
  | [c] => [[c]]
  | c₁ :: c₂ :: rest =>
    if c₁ = '\r' ∧ c₂ = '\n' then [] :: splitCRLF rest
    else
      match splitCRLF (c₂ :: rest) with
      | [] => [[c₁]]
      | l :: ls => (c₁ :: l) :: ls

/-- The filter of `redisParser`: keep a line unless it starts with a
`*` or `$`. -/
def keepLine (l : PyStr) : Bool :=
  match l with
  | [] => true
  | c :: _ => !(c == '*' || c == '$')

/-- The decoder in main.py lines 31-44: decode, strip, split on CRLF and
drop the lines that start with `*` or `$`. -/
def redisParser (data : PyStr) : List PyStr :=
  (splitCRLF (pyStrip data)).filter keepLine

/-- `format_bulk_string_success` (format_response.py lines 7-11). -/
def format_bulk_string_success (m : PyStr) : PyStr :=
  '$' :: (natDigits m.length ++ ('\r' :: '\n' :: (m ++ ['\r', '\n'])))

/-- `format_resp_array` (format_response.py lines 19-28). -/
def format_resp_array (els : List PyStr) : PyStr :=
  if els = [] then ['*', '0', '\r', '\n']
  else '*' :: (natDigits els.length ++
    ('\r' :: '\n' :: (els.map format_bulk_string_success).flatten))

/-- The concatenated bulk-string frames without the final CRLF. -/
def bulkJoinTrunc : List PyStr → PyStr
  | [] => []
  | [el] => '$' :: (natDigits el.length ++ ('\r' :: '\n' :: el))
  | el :: rest => format_bulk_string_success el ++ bulkJoinTrunc rest

/-- The lines an encoded argument sequence contributes after splitting on
CRLF: a `$`-length line followed by the argument itself, for each argument. -/
def interLines : List PyStr → List PyStr
  | [] => []
  | el :: rest => ('$' :: natDigits el.length) :: el :: interLines rest

/-- Concrete store used by the C7 theorem: key "k" holds the string "v". -/
def stScard : Store :=
  fun k => if k = ("k".toList) then some (Value.str ("v".toList), none) else none

/-- Concrete set store used by the C4 theorem: k1 holds the set object
whose items dict (object 0) lists v1, v2, v3; k2 holds object 1 with
v2, v4. -/
def stSets : SetStore where
  refs := fun k =>
    if k = ("k1".toList) then some (.oset 0)
    else if k = ("k2".toList) then some (.oset 1)
    else none
  heap := fun i =>
    if i = 0 then [("v1".toList), ("v2".toList), ("v3".toList)]
    else if i = 1 then [("v2".toList), ("v4".toList)]
    else []

/-- Concrete stream used by the C5 theorem: a single entry with id 10-0. -/
def stream10 : StreamVal :=
  [(("10-0".toList), [(("a".toList), ("b".toList))])]

/-- Concrete store used by the C3 theorem: one key "k" holding string "v"
with expiry deadline 10. -/
def stExpired : Store :=
  fun k => if k = ("k".toList) then some (Value.str ("v".toList), some (10 : ℚ)) else none

/-- Concrete store used by the C10 witness: key "c" holds digit string "41"
with expiry deadline 100. -/
def stIncr : Store :=
  fun k => if k = ("c".toList) then some (Value.str ("41".toList), some (100 : ℚ)) else none

/-- C2: For every key, the TTL command replies with the integer -2 if the key
is missing (absent, or already past its deadline and hence passively
reported absent), with -1 if the key exists and is persistent, and otherwise
with floor(deadline - now) seconds. -/
theorem ttl_replies_claim (st : Store) (key : PyStr) (now : ℚ) :
    ((st key = none ∨ ∃ v d, st key = some (v, some d) ∧ now > d) →
      (handle_ttl st key now).1 = -2) ∧
    (∀ v, st key = some (v, none) → (handle_ttl st key now).1 = -1) ∧
    (∀ v d, st key = some (v, some d) → ¬ now > d →
      (handle_ttl st key now).1 = Int.floor (d - now)) := by
  refine ⟨?_, ?_, ?_⟩
  · rintro (h | ⟨v, d, h, hd⟩)
    · simp [handle_ttl, DataStorage.get, h]
    · simp [handle_ttl, DataStorage.get, h, hd]
  · intro v h
    simp [handle_ttl, DataStorage.get, DataStorage.get_expiry_time, h]
  · intro v d h hd
    have hq : (0 : ℚ) ≤ d - now := by
      have : now ≤ d := le_of_not_lt hd
      linarith
    simp only [handle_ttl, DataStorage.get, DataStorage.get_expiry_time, h, if_neg hd]
    simp [pyTrunc, not_lt.mpr hq]

/-- Witness for C2: on a key with deadline 10 queried at time 9/2, TTL
replies floor(10 - 9/2) = 5. -/
theorem ttl_replies_claim_witness :
    (handle_ttl stExpired ("k".toList) (9/2)).1 = 5 := by
  have h := (ttl_replies_claim stExpired ("k".toList) (9/2)).2.2
    (Value.str ("v".toList)) (10 : ℚ) (by decide) (by norm_num)
  rw [h]
  have : (10 : ℚ) - 9/2 = 11/2 := by norm_num
  rw [this]
  norm_num [Int.floor_eq_iff]

/-- C3: the value lookup `get` does delete an expired entry, but the expiry
lookup `get_ttl` (used for TTL/KEEPTTL) reports the key as absent while
leaving the entry in the store: immediately after `get_ttl` the key still
exists.  Evaluated at a key whose deadline 10 has passed at time 11. -/
theorem get_ttl_expired_entry_not_deleted :
    (DataStorage.get_ttl stExpired ("k".toList) 11).1 = none ∧
    (DataStorage.get_ttl stExpired ("k".toList) 11).2 ("k".toList) =
      some (Value.str ("v".toList), some (10 : ℚ)) ∧
    (DataStorage.get stExpired ("k".toList) 11).1 = none ∧
    (DataStorage.get stExpired ("k".toList) 11).2 ("k".toList) = none := by
  refine ⟨?_, ?_, ?_, ?_⟩ <;> decide

/-- C10: a successful INCR on a key holding a numeric string with an expiry
stores the incremented value with no expiry: the previously set TTL is
silently discarded because `DataStorage.set` writes `expiry_time=None`
whenever called without an expiry argument. -/
theorem incr_discards_ttl (st : Store) (key : PyStr) (s : PyStr) (d now : ℚ)
    (hk : st key = some (.str s, some d)) (hex : ¬ now > d) (hdig : pyIsDigit s) :
    (handle_incr st key now).1 = .reply (pyDigitsToNat s + 1) ∧
    (handle_incr st key now).2 key =
      some (.str (natDigits (pyDigitsToNat s + 1)), none) := by
  have hget : DataStorage.get st key now = (some (.str s), st) := by
    simp [DataStorage.get, hk, hex]
  simp [handle_incr, hget, hdig, DataStorage.set, Store.update]

/-- Witness for C10: INCR on key "c" holding "41" with deadline 100 at time 5
stores "42" with no expiry. -/
theorem incr_discards_ttl_witness :
    (handle_incr stIncr ("c".toList) 5).2 ("c".toList) =
      some (.str ("42".toList), none) := by
  have h := incr_discards_ttl stIncr ("c".toList) ("41".toList) 100 5
    (by decide) (by norm_num) (by decide)
  rw [h.2]
  decide

/-- Two take-of-drop slices with equal indices are equal. -/
theorem take_drop_eq_of (l : List α) (a b a' b' : Nat) (h1 : a = a') (h2 : b = b') :
    (l.drop a).take b = (l.drop a').take b' := by
  rw [h1, h2]

/-- A take-of-drop slice that covers the whole suffix equals the suffix. -/
theorem take_drop_full (l : List α) (a b a' : Nat) (h1 : a = a')
    (h2 : l.length - a ≤ b) : (l.drop a).take b = l.drop a' := by
  subst h1
  apply List.take_of_length_le
  rw [List.length_drop]
  exact h2

/-- Symmetric version of `take_drop_full`. -/
theorem drop_eq_take_drop (l : List α) (a b a' : Nat) (h1 : a = a')
    (h2 : l.length - a' ≤ b) : l.drop a = (l.drop a').take b := by
  exact (take_drop_full l a' b a h1.symm h2).symm

/-- A take-of-drop slice is empty when it takes nothing or starts past the end. -/
theorem take_drop_nil (l : List α) (a b : Nat) (h : b = 0 ∨ l.length ≤ a) :
    (l.drop a).take b = [] := by
  rcases h with h | h
  · subst h; exact List.take_zero _
  · rw [List.drop_eq_nil_of_le h]; exact List.take_nil

/-- Dropping congruence. -/
theorem drop_eq_drop_of (l : List α) (a a' : Nat) (h : a = a') :
    l.drop a = l.drop a' := by rw [h]

/-- LRANGE 0 -1 returns the whole stored list. -/
theorem lrange_all (l : List α) : lrange l 0 (-1) = l := by
  unfold lrange
  rw [if_neg (by decide :
    ¬((0:Int) > -1 ∧ ((0 < (0:Int) ∧ 0 < (-1:Int)) ∨ ((0:Int) < 0 ∧ (-1:Int) < 0))))]
  by_cases hL : (0:Int) ≥ (l.length : Int)
  · rw [if_pos hL]
    have h0 : l.length = 0 := by omega
    exact (List.length_eq_zero.mp h0).symm
  · rw [if_neg hL]
    have h2 : lrangeEndClamp l.length (-1) = -1 := by
      unfold lrangeEndClamp
      rw [if_neg (by omega)]
    rw [if_pos h2]
    unfold pySliceFrom pyIndex
    rw [if_neg (by omega : ¬ (0:Int) < 0)]
    simp

/-- The LPUSH insert loop builds the reversed arguments in front of the
prior contents: invariant after `k` iterations. -/
theorem lpush_foldl_aux (items l : List PyStr) (k : Nat) (hk : k ≤ items.length) :
    (List.range k).foldl
      (fun acc i => pyInsert acc i (items.getD (items.length - i - 1) [])) l
      = (items.drop (items.length - k)).reverse ++ l := by
  induction k with
  | zero => simp
  | succ k ih =>
    have hk' : k ≤ items.length := by omega
    rw [List.range_succ, List.foldl_append, ih hk']
    show pyInsert ((items.drop (items.length - k)).reverse ++ l) k
      (items.getD (items.length - k - 1) []) = _
    have hlen : ((items.drop (items.length - k)).reverse).length = k := by
      rw [List.length_reverse, List.length_drop]; omega
    rw [pyInsert, List.take_left' hlen, List.drop_left' hlen]
    have hix : items.length - k - 1 < items.length := by omega
    have hdropstep : items.drop (items.length - (k + 1)) =
        items.getD (items.length - k - 1) [] :: items.drop (items.length - k) := by
      rw [List.getD_eq_getElem _ _ hix]
      rw [show items.length - (k + 1) = items.length - k - 1 from by omega]
      rw [List.drop_eq_getElem_cons hix]
      rw [show items.length - k - 1 + 1 = items.length - k from by omega]
    rw [hdropstep, List.reverse_cons, List.append_assoc, List.singleton_append]

/-- LPUSH prepends the arguments in reverse order. -/
theorem lpush_eq (l items : List PyStr) : lpush l items = items.reverse ++ l := by
  have h := lpush_foldl_aux items l items.length le_rfl
  unfold lpush
  rw [h]
  simp

/-- C9: for every prior list contents and non-empty argument sequence,
LPUSH(args) followed by LRANGE 0 -1 returns reverse(args) ++ prior, and
RPUSH(args) followed by LRANGE 0 -1 returns prior ++ args. -/
theorem push_lrange_claim (prior args : List PyStr) (h : args ≠ []) :
    lrange (lpush prior args) 0 (-1) = args.reverse ++ prior ∧
    lrange (rpush prior args) 0 (-1) = prior ++ args := by
  constructor
  · rw [lrange_all, lpush_eq]
  · rw [lrange_all, rpush]

/-- Witness for C9: LPUSH k a b on an empty key followed by LRANGE 0 -1
yields [b, a]. -/
theorem push_lrange_claim_witness :
    lrange (lpush [] [("a".toList), ("b".toList)]) 0 (-1) =
      [("b".toList), ("a".toList)] := by
  have h := (push_lrange_claim [] [("a".toList), ("b".toList)] (by decide)).1
  rw [h]
  decide

/-- Counterexample for C6: on the stored list [a, b], LRANGE -1 0 returns
[b] (the `start == -1` branch returns `value[-1:]`), whereas the claim's
normalization gives effective start 1 > effective end 0 and demands the
empty array. -/
theorem lrange_claim_counterexample :
    lrange [("a".toList), ("b".toList)] (-1) 0 ≠
      lrangeClaim [("a".toList), ("b".toList)] (-1) 0 := by
  decide

set_option maxHeartbeats 2000000 in
/-- C6 (amended): LRANGE agrees with the claim's normalization except that
(i) when start = -1 and the end index denotes a position strictly before the
last element, the result is the suffix holding just the last element rather
than the empty array, and (ii) an end index that is still negative after
adding the length yields the empty array instead of being clamped to 0. -/
theorem lrange_eq_amended (l : List α) (s e : Int) :
    lrange l s e =
      if s = -1 ∧ 0 ≤ e ∧ e + 1 < (l.length : Int) then l.drop (l.length - 1)
      else if e + (l.length : Int) < 0 then []
      else lrangeClaim l s e := by
  unfold lrange lrangeClaim lrangeEndClamp effIndex pySlice pySliceFrom pyIndex
  split_ifs <;>
    first
      | rfl
      | (exfalso; omega)
      | (apply take_drop_eq_of <;> omega)
      | (apply take_drop_full <;> omega)
      | (apply drop_eq_take_drop <;> omega)
      | (apply take_drop_nil; omega)
      | (symm; apply take_drop_nil; omega)
      | (apply drop_eq_drop_of; omega)
      | (apply List.drop_eq_nil_of_le; omega)
      | (symm; apply List.drop_eq_nil_of_le; omega)

/-- C7: evaluated on a key holding a string, SCARD returns 0 and the handler
replies with the integer frame ":0", not with a WRONGTYPE error (the
try/except in the handler is dead code because `scard` never raises). -/
theorem scard_wrong_type_replies_zero :
    DataStorage.scard stScard ("k".toList) = 0 ∧
    handle_scard stScard ("k".toList) = (":0\r\n".toList) := by
  constructor <;> decide

/-- C4: SDIFF k1 k2 on k1 = [v1, v2, v3], k2 = [v2, v4] returns [v1, v3]
in first-operand insertion order, but also removes v2 from the stored set
at k1 (the shallow copy aliases k1's items dict); SINTER likewise returns
[v2] and shrinks the stored k1 to [v2].  The claim requires the stored
operand sets to be unchanged. -/
theorem sdiff_sinter_mutate_first_operand :
    ((DataStorage.sdiff stSets [("k1".toList), ("k2".toList)]).1 =
        [("v1".toList), ("v3".toList)] ∧
      (DataStorage.sdiff stSets [("k1".toList), ("k2".toList)]).2.heap 0 =
        [("v1".toList), ("v3".toList)]) ∧
    ((DataStorage.sinter stSets [("k1".toList), ("k2".toList)]).1 =
        [("v2".toList)] ∧
      (DataStorage.sinter stSets [("k1".toList), ("k2".toList)]).2.heap 0 =
        [("v2".toList)]) := by
  refine ⟨⟨?_, ?_⟩, ⟨?_, ?_⟩⟩ <;> decide

/-- C5: XADD with a partial-auto id.  On a stream whose last id is 10-0,
`XADD 5-*` is accepted and appends 5-0 instead of being rejected for
`ms < lm`; the parts of the claim the code does satisfy are also evaluated:
`0-*` on an absent stream yields 0-1, and `1-*` after 1-0 yields 1-1. -/
theorem xadd_partial_auto_accepts_smaller_ms :
    DataStorage.xadd (some stream10) ("5-*".toList) 0 [(("c".toList), ("d".toList))] =
      .ok ("5-0".toList) (stream10 ++ [(("5-0".toList), [(("c".toList), ("d".toList))])]) ∧
    DataStorage.xadd none ("0-*".toList) 0 [(("c".toList), ("d".toList))] =
      .ok ("0-1".toList) [(("0-1".toList), [(("c".toList), ("d".toList))])] ∧
    DataStorage.xadd (some [(("1-0".toList), [])]) ("1-*".toList) 0 [] =
      .ok ("1-1".toList) [(("1-0".toList), []), (("1-1".toList), [])] := by
  refine ⟨?_, ?_, ?_⟩ <;> decide

/-- C1: with two pending waiters of timestamps 1 < 2 blocked on an empty
list, RPUSH of [foo, bar] resolves the earlier waiter first (the ordering
part of the claim holds) but hands the same element foo to both waiters and
pops only foo, leaving [bar]; the claim demands distinct elements foo and
bar and an empty final list. -/
theorem rpush_handoff_shares_single_element :
    rpush_with_handoff [] [("foo".toList), ("bar".toList)] [(1, 0), (2, 1)]
        (fun _ => true) =
      some ([("bar".toList)],
        [(0, ("foo".toList), 1), (1, ("foo".toList), 2)]) := by
  decide

/-- Manual unfolding equation for `splitCRLF` on two or more characters. -/
theorem splitCRLF_cons₂ (c₁ c₂ : Char) (rest : PyStr) :
    splitCRLF (c₁ :: c₂ :: rest) =
      if c₁ = '\r' ∧ c₂ = '\n' then [] :: splitCRLF rest
      else
        match splitCRLF (c₂ :: rest) with
        | [] => [[c₁]]
        | l :: ls => (c₁ :: l) :: ls := by
  rfl

/-- Every character produced by `digitChar10` is an ordinary digit. -/
theorem digitChar10_flags (k : Nat) :
    digitChar10 k ≠ '\r' ∧ digitChar10 k ≠ '\n' ∧ pyIsSpace (digitChar10 k) = false := by
  unfold digitChar10
  split <;> exact ⟨by decide, by decide, by decide⟩

/-- Characters of a fueled decimal rendering are digits. -/
theorem natDigitsAux_flags (fuel : Nat) : ∀ (n : Nat) (c : Char),
    c ∈ natDigitsAux fuel n → c ≠ '\r' ∧ c ≠ '\n' ∧ pyIsSpace c = false := by
  induction fuel with
  | zero => intro n c h; simp [natDigitsAux] at h
  | succ fuel ih =>
    intro n c h
    unfold natDigitsAux at h
    by_cases h10 : n < 10
    · rw [if_pos h10] at h
      simp at h
      subst h
      exact digitChar10_flags n
    · rw [if_neg h10] at h
      rcases List.mem_append.mp h with h | h
      · exact ih _ _ h
      · simp at h
        subst h
        exact digitChar10_flags _

/-- Characters of a decimal rendering are digits. -/
theorem natDigits_flags (n : Nat) (c : Char) (h : c ∈ natDigits n) :
    c ≠ '\r' ∧ c ≠ '\n' ∧ pyIsSpace c = false :=
  natDigitsAux_flags _ _ _ h

/-- Splitting a CR-free string on CRLF yields the single line. -/
theorem splitCRLF_no_cr (l : PyStr) (h : '\r' ∉ l) : splitCRLF l = [l] := by
  induction l with
  | nil => rfl
  | cons c rest ih =>
    have hc : c ≠ '\r' := fun hh => h (hh ▸ List.mem_cons_self c rest)
    have hrest : '\r' ∉ rest := fun hh => h (List.mem_cons_of_mem c hh)
    cases rest with
    | nil => rfl
    | cons c₂ rest' =>
      rw [splitCRLF_cons₂, if_neg (fun hand => hc hand.1), ih hrest]

/-- Splitting peels off a CR-free prefix line before its CRLF. -/
theorem splitCRLF_append (a b : PyStr) (h : '\r' ∉ a) :
    splitCRLF (a ++ '\r' :: '\n' :: b) = a :: splitCRLF b := by
  induction a with
  | nil =>
    rw [List.nil_append, splitCRLF_cons₂, if_pos ⟨rfl, rfl⟩]
  | cons c a' ih =>
    have hc : c ≠ '\r' := fun hh => h (hh ▸ List.mem_cons_self c a')
    have ha' : '\r' ∉ a' := fun hh => h (List.mem_cons_of_mem c hh)
    cases a' with
    | nil =>
      have hb : splitCRLF ('\r' :: '\n' :: b) = [] :: splitCRLF b := by
        rw [splitCRLF_cons₂, if_pos ⟨rfl, rfl⟩]
      rw [List.cons_append, List.nil_append, splitCRLF_cons₂,
        if_neg (fun hand => hc hand.1), hb]
    | cons c₂ a'' =>
      have step := ih ha'
      simp only [List.cons_append] at step ⊢
      rw [splitCRLF_cons₂, if_neg (fun hand => hc hand.1), step]

/-- Unfolding equation for `bulkJoinTrunc` on two or more elements. -/
theorem bulkJoinTrunc_cons₂ (el el₂ : PyStr) (rest : List PyStr) :
    bulkJoinTrunc (el :: el₂ :: rest) =
      format_bulk_string_success el ++ bulkJoinTrunc (el₂ :: rest) := by
  rfl

/-- The encoded bulk frames are the truncated form plus a final CRLF. -/
theorem join_eq_trunc (args : List PyStr) (h : args ≠ []) :
    (args.map format_bulk_string_success).flatten = bulkJoinTrunc args ++ ['\r', '\n'] := by
  induction args with
  | nil => exact absurd rfl h
  | cons el rest ih =>
    cases rest with
    | nil =>
      simp [bulkJoinTrunc, format_bulk_string_success]
    | cons el₂ rest' =>
      rw [List.map_cons, List.flatten_cons, ih (List.cons_ne_nil _ _),
        bulkJoinTrunc_cons₂, List.append_assoc]

/-- The truncated bulk frames are never empty for a nonempty argument list. -/
theorem bulkJoinTrunc_ne_nil (args : List PyStr) (h : args ≠ []) :
    bulkJoinTrunc args ≠ [] := by
  cases args with
  | nil => exact absurd rfl h
  | cons el rest =>
    cases rest with
    | nil => exact List.cons_ne_nil _ _
    | cons el₂ rest' =>
      rw [bulkJoinTrunc_cons₂]
      exact List.append_ne_nil_of_left_ne_nil (List.cons_ne_nil _ _) _

/-- The last character of the truncated bulk frames is the last character of
the last argument. -/
theorem bulkJoinTrunc_getLast (args : List PyStr) (h : ∀ el ∈ args, el ≠ [])
    (hne : args ≠ []) :
    (bulkJoinTrunc args).getLast? = args.getLast?.bind (fun el => el.getLast?) := by
  induction args with
  | nil => exact absurd rfl hne
  | cons el rest ih =>
    cases rest with
    | nil =>
      have hel : el ≠ [] := h el (List.mem_cons_self _ _)
      have hshape : bulkJoinTrunc [el] =
          (('$' :: natDigits el.length) ++ ['\r', '\n']) ++ el := by
        show '$' :: (natDigits el.length ++ ('\r' :: '\n' :: el)) = _
        simp
      rw [hshape, List.getLast?_append_of_ne_nil _ hel]
      rfl
    | cons el₂ rest' =>
      have htr := bulkJoinTrunc_ne_nil (el₂ :: rest') (List.cons_ne_nil _ _)
      rw [bulkJoinTrunc_cons₂, List.getLast?_append_of_ne_nil _ htr,
        ih (fun x hx => h x (List.mem_cons_of_mem _ hx)) (List.cons_ne_nil _ _),
        List.getLast?_cons_cons]

/-- Splitting the truncated bulk frames yields the alternating length and
argument lines. -/
theorem splitCRLF_trunc (args : List PyStr) (hne : args ≠ [])
    (h : ∀ el ∈ args, '\r' ∉ el) :
    splitCRLF (bulkJoinTrunc args) = interLines args := by
  induction args with
  | nil => exact absurd rfl hne
  | cons el rest ih =>
    have hel : '\r' ∉ el := h el (List.mem_cons_self _ _)
    have hD : '\r' ∉ ('$' :: natDigits el.length) := by
      intro hmem
      rcases List.mem_cons.mp hmem with hh | hh
      · exact absurd hh (by decide)
      · exact (natDigits_flags _ _ hh).1 rfl
    cases rest with
    | nil =>
      have hshape : bulkJoinTrunc [el] =
          ('$' :: natDigits el.length) ++ '\r' :: '\n' :: el := by
        show '$' :: (natDigits el.length ++ ('\r' :: '\n' :: el)) = _
        simp
      rw [hshape, splitCRLF_append _ _ hD, splitCRLF_no_cr el hel]
      rfl
    | cons el₂ rest' =>
      have hshape : bulkJoinTrunc (el :: el₂ :: rest') =
          ('$' :: natDigits el.length) ++ '\r' :: '\n' ::
            (el ++ '\r' :: '\n' :: bulkJoinTrunc (el₂ :: rest')) := by
        rw [bulkJoinTrunc_cons₂]
        show '$' :: (natDigits el.length ++ ('\r' :: '\n' :: (el ++ ['\r', '\n']))) ++ _ = _
        simp
      rw [hshape, splitCRLF_append _ _ hD, splitCRLF_append _ _ hel,
        ih (List.cons_ne_nil _ _) (fun x hx => h x (List.mem_cons_of_mem _ hx))]
      rfl

/-- Filtering the alternating lines drops the length lines and keeps the
arguments. -/
theorem filter_interLines (args : List PyStr)
    (h : ∀ el ∈ args, keepLine el = true) :
    (interLines args).filter keepLine = args := by
  induction args with
  | nil => rfl
  | cons el rest ih =>
    have h1 : keepLine ('$' :: natDigits el.length) = false := rfl
    show List.filter keepLine (('$' :: natDigits el.length) :: el :: interLines rest) = _
    rw [List.filter_cons, List.filter_cons]
    simp only [h1, h el (List.mem_cons_self _ _)]
    simp only [Bool.false_eq_true, if_false, if_true]
    rw [ih (fun x hx => h x (List.mem_cons_of_mem _ hx))]

/-- Stripping an encoded frame that starts with a non-space character and,
before its final CRLF, ends with a non-space character removes exactly the
final CRLF. -/
theorem pyStrip_wrap (c : Char) (mid : PyStr) (hc : pyIsSpace c = false)
    (hlast : ∀ d ∈ (c :: mid).getLast?, pyIsSpace d = false) :
    pyStrip ((c :: mid) ++ ['\r', '\n']) = c :: mid := by
  unfold pyStrip
  have h1 : List.dropWhile pyIsSpace ((c :: mid) ++ ['\r', '\n']) =
      (c :: mid) ++ ['\r', '\n'] := by
    rw [List.cons_append]
    rw [List.dropWhile_cons_of_neg (by rw [hc]; exact Bool.false_ne_true)]
  rw [h1, List.reverse_append]
  have h2 : List.dropWhile pyIsSpace ((['\r', '\n'] : PyStr).reverse ++ (c :: mid).reverse) =
      List.dropWhile pyIsSpace ((c :: mid).reverse) := by
    show List.dropWhile pyIsSpace ('\n' :: '\r' :: (c :: mid).reverse) = _
    rw [List.dropWhile_cons_of_pos (by decide), List.dropWhile_cons_of_pos (by decide)]
  rw [h2]
  obtain ⟨d, t, hdt⟩ : ∃ d t, (c :: mid).reverse = d :: t := by
    cases hrev : (c :: mid).reverse with
    | nil => exact absurd (List.reverse_eq_nil_iff.mp hrev) (List.cons_ne_nil _ _)
    | cons d t => exact ⟨d, t, rfl⟩
  have hd : pyIsSpace d = false := by
    apply hlast
    have hgl : (c :: mid).getLast? = some d := by
      rw [← List.head?_reverse, hdt]
      rfl
    rw [hgl]
    rfl
  rw [hdt, List.dropWhile_cons_of_neg (by rw [hd]; exact Bool.false_ne_true), ← hdt,
    List.reverse_reverse]

/-- Counterexample for C8: the well-formed array frame encoding the single
argument "$a" decodes to the empty argument list, because `redisParser`
drops every line that starts with `$`, including payload lines. -/
theorem resp_roundtrip_counterexample :
    redisParser (format_resp_array [("$a".toList)]) ≠ [("$a".toList)] := by
  decide

/-- C8 (amended): decode after encode is the identity on argument sequences
whose elements are non-empty, contain no CR or LF, and do not start with
`*` or `$`, and whose final element does not end in whitespace. -/
theorem resp_roundtrip_amended (args : List PyStr)
    (hel : ∀ el ∈ args, el ≠ [] ∧ '\r' ∉ el ∧ '\n' ∉ el ∧ keepLine el = true)
    (hlast : ∀ el ∈ args.getLast?, ∀ c ∈ el.getLast?, pyIsSpace c = false) :
    redisParser (format_resp_array args) = args := by
  cases args with
  | nil => decide
  | cons a rest =>
    have hne : (a :: rest) ≠ ([] : List PyStr) := List.cons_ne_nil _ _
    have hjoin := join_eq_trunc (a :: rest) hne
    have hform : format_resp_array (a :: rest) =
        ('*' :: (natDigits (a :: rest).length ++
          '\r' :: '\n' :: bulkJoinTrunc (a :: rest))) ++ ['\r', '\n'] := by
      unfold format_resp_array
      rw [if_neg hne, hjoin]
      simp
    have hTne : bulkJoinTrunc (a :: rest) ≠ [] := bulkJoinTrunc_ne_nil _ hne
    have hglT : (bulkJoinTrunc (a :: rest)).getLast? =
        (a :: rest).getLast?.bind (fun el => el.getLast?) :=
      bulkJoinTrunc_getLast (a :: rest) (fun el h => (hel el h).1) hne
    have hlast' : ∀ d ∈ ('*' :: (natDigits (a :: rest).length ++
        '\r' :: '\n' :: bulkJoinTrunc (a :: rest))).getLast?, pyIsSpace d = false := by
      intro d hd
      have hshape2 : ('*' :: (natDigits (a :: rest).length ++
          '\r' :: '\n' :: bulkJoinTrunc (a :: rest))) =
          (('*' :: natDigits (a :: rest).length) ++ ['\r', '\n']) ++
            bulkJoinTrunc (a :: rest) := by simp
      rw [hshape2, List.getLast?_append_of_ne_nil _ hTne, hglT] at hd
      obtain ⟨lel, hlel⟩ : ∃ lel, (a :: rest).getLast? = some lel :=
        Option.isSome_iff_exists.mp (List.getLast?_isSome.mpr hne)
      rw [hlel] at hd
      exact hlast lel (by rw [hlel]; rfl) d hd
    have hstrip : pyStrip (format_resp_array (a :: rest)) =
        '*' :: (natDigits (a :: rest).length ++
          '\r' :: '\n' :: bulkJoinTrunc (a :: rest)) := by
      rw [hform]
      exact pyStrip_wrap '*' _ (by decide) hlast'
    have hDflags : '\r' ∉ ('*' :: natDigits (a :: rest).length) := by
      intro hmem
      rcases List.mem_cons.mp hmem with hh | hh
      · exact absurd hh (by decide)
      · exact (natDigits_flags _ _ hh).1 rfl
    have hsplit : splitCRLF ('*' :: (natDigits (a :: rest).length ++
        '\r' :: '\n' :: bulkJoinTrunc (a :: rest))) =
        ('*' :: natDigits (a :: rest).length) :: splitCRLF (bulkJoinTrunc (a :: rest)) := by
      rw [show '*' :: (natDigits (a :: rest).length ++
          '\r' :: '\n' :: bulkJoinTrunc (a :: rest)) =
          ('*' :: natDigits (a :: rest).length) ++
            '\r' :: '\n' :: bulkJoinTrunc (a :: rest) from by simp]
      exact splitCRLF_append _ _ hDflags
    have hsplitT := splitCRLF_trunc (a :: rest) hne (fun el h => (hel el h).2.1)
    unfold redisParser
    rw [hstrip, hsplit, hsplitT, List.filter_cons]
    simp only [show keepLine ('*' :: natDigits (a :: rest).length) = false from rfl,
      Bool.false_eq_true, if_false]
    exact filter_interLines (a :: rest) (fun el h => (hel el h).2.2.2)

/-- Witness for C8 (amended): the ECHO hey frame round-trips. -/
theorem resp_roundtrip_amended_witness :
    redisParser (format_resp_array [("ECHO".toList), ("hey".toList)]) =
      [("ECHO".toList), ("hey".toList)] := by
  exact resp_roundtrip_amended [("ECHO".toList), ("hey".toList)]
    (by decide) (by decide)
